import Mathlib

/-
Verification of the autocil project-introspection-to-layout pipeline.

The embedding mirrors src/index.ts.  Filesystem effects are made explicit:
a directory is represented by the list of file names it contains, and the
result of reading-and-parsing the project manifest is represented by
`Option (Option PackageJson)`:
  none               -- no package.json file exists in the directory
  some none          -- the file exists but JSON.parse throws (malformed)
  some (some pkg)    -- the file exists and parses to `pkg`

JavaScript string truthiness (only the empty string is falsy) is modelled
explicitly wherever the source relies on it.
-/

namespace Autocil

/-- One pane of the generated teamocil layout: an ordered command list and
whether the pane carries a `focus: true` marker. -/
structure Pane where
  commands : List String
  focus : Bool
deriving DecidableEq, Repr

/-- One window of the generated teamocil layout. -/
structure Window where
  name : String
  root : String
  layout : String
  focus : Bool
  panes : List Pane
deriving DecidableEq, Repr

/-- The rendered layout document: a comment line, a session name and the
ordered window list (mirrors the YAML text built by `generateTeamocilYaml`). -/
structure LayoutDocument where
  comment : String
  name : String
  windows : List Window
deriving DecidableEq, Repr

instance : Inhabited Pane := ⟨⟨[], false⟩⟩

instance : Inhabited Window := ⟨⟨"", "", "", false, []⟩⟩

/-- The parsed shape of a project manifest as the source consumes it:
an optional `name` field and an optional `scripts` object (an ordered list
of key/value pairs; JSON.parse keeps the last occurrence of a duplicated
key, which `getScript` reproduces). -/
structure PackageJson where
  name : Option String
  scripts : Option (List (String × String))
deriving DecidableEq, Repr

/-- The record returned by `getProjectInfo` in src/index.ts. -/
structure ProjectInfo where
  name : String
  displayName : String
  hasDevScript : Bool
  hasTestsWatchScript : Bool
  hasTypesWatchScript : Bool
  hasDbStudioScript : Bool
deriving DecidableEq, Repr

/-- JavaScript truthiness of an optional string (`undefined`/`""` are falsy). -/
def optTruthy : Option String → Bool
  | none => false
  | some s => !(s == "")

/-- Key lookup in a parsed JSON object: the last occurrence of the key wins,
as with JSON.parse on duplicated keys. -/
def getScript (scripts : List (String × String)) (key : String) : Option String :=
  ((scripts.filter (fun p => p.1 == key)).getLast?).map Prod.snd

/-- Truthiness of `packageJson.scripts[key]` as the source tests it. -/
def hasScript (scripts : Option (List (String × String))) (key : String) : Bool :=
  match scripts with
  | some scr => optTruthy (getScript scr key)
  | none => false

/-- Character image under the regex replacement `/[@/]/g -> '-'` of
`sanitizePackageName` in src/index.ts. -/
def sanChar (c : Char) : Char :=
  if c = '@' ∨ c = '/' then '-' else c

/-- Drop a single leading dash, as the anchored-dash regex replacement with
the empty string does. -/
def dropOneDash (l : List Char) : List Char :=
  if l.head? = some '-' then l.tail else l

/-- `sanitizePackageName` on the character list: replace every `@` and `/`
with a dash, then drop one leading dash. -/
def sanitizeChars (l : List Char) : List Char :=
  dropOneDash (l.map sanChar)

/-- `sanitizePackageName` from src/index.ts. -/
def sanitizePackageName (s : String) : String :=
  String.mk (sanitizeChars s.data)

/-- `detectPackageManager` from src/index.ts, over the directory's file list:
yarn.lock selects yarn, else package-lock.json selects npm, else pnpm. -/
def detectPackageManager (files : List String) : String :=
  if files.contains "yarn.lock" then "yarn"
  else if files.contains "package-lock.json" then "npm"
  else "pnpm"

/-- `hasDockerComposeFile` from src/index.ts, over the directory's file list. -/
def hasDockerComposeFile (files : List String) : Bool :=
  ["docker-compose.yml", "docker-compose.yaml", "docker-compose.json"].any
    (fun f => files.contains f)

/-- `hasDockerfile` from src/index.ts, over the directory's file list. -/
def hasDockerfile (files : List String) : Bool :=
  files.contains "Dockerfile"

/-- The initial project name `customName || path.basename(dir)` with
JavaScript truthiness on `customName`. -/
def defaultProjectName (dirBasename : String) (customName : Option String) : String :=
  match customName with
  | some c => if c == "" then dirBasename else c
  | none => dirBasename

/-- `getProjectInfo` from src/index.ts.  `dirBasename` is the base name of
the directory; `manifest` is the outcome of the existence check and parse of
package.json (see the file-level comment for its encoding). -/
def getProjectInfo (dirBasename : String) (customName : Option String)
    (manifest : Option (Option PackageJson)) : ProjectInfo :=
  let base := defaultProjectName dirBasename customName
  match manifest with
  | some (some pkg) =>
    let names : String × String :=
      match pkg.name with
      | some n =>
        if !(n == "") && !(optTruthy customName) then (sanitizePackageName n, n)
        else (base, base)
      | none => (base, base)
    { name := names.1
      displayName := names.2
      hasDevScript := hasScript pkg.scripts "dev"
      hasTestsWatchScript := hasScript pkg.scripts "test:watch"
      hasTypesWatchScript := hasScript pkg.scripts "types:watch"
      hasDbStudioScript := hasScript pkg.scripts "db:studio" }
  | _ =>
    { name := base
      displayName := base
      hasDevScript := false
      hasTestsWatchScript := false
      hasTypesWatchScript := false
      hasDbStudioScript := false }

/-- The compose-down-then-up pipeline emitted in the services window, with
the `--build` flag exactly when a Dockerfile was found. -/
def dockerCmd (withBuild : Bool) : String :=
  "docker compose down 2>&1 | tee docker-output.log ; docker compose up"
    ++ (if withBuild then " --build" else "")
    ++ " 2>&1 | tee -a docker-output.log"

/-- The unconditional first (editor) pane of the dev window. -/
def vimPane : Pane := ⟨["vim"], false⟩

/-- The test-watch pane, prefixed with a two-second delay. -/
def testWatchPane (pm : String) : Pane := ⟨["sleep 2", pm ++ " run test:watch"], false⟩

/-- The types-watch pane. -/
def typesWatchPane (pm : String) : Pane := ⟨[pm ++ " run types:watch"], false⟩

/-- The dev-server pane. -/
def devScriptPane (pm : String) : Pane := ⟨[pm ++ " run dev"], false⟩

/-- The unconditional final pane of the dev window: delay then directory
listing, carrying the `focus: true` marker. -/
def listingPane : Pane := ⟨["sleep 1", "tree --gitignore"], true⟩

/-- The database-studio pane of the services window. -/
def dbStudioPane (pm : String) : Pane := ⟨[pm ++ " db:studio"], false⟩

/-- The pane sequence of the dev window, in the emission order of
`generateTeamocilYaml`: editor, optional test-watch, optional types-watch,
optional dev, then the listing pane. -/
def devPanes (hasDev hasTests hasTypes : Bool) (pm : String) : List Pane :=
  [vimPane]
    ++ (if hasTests then [testWatchPane pm] else [])
    ++ (if hasTypes then [typesWatchPane pm] else [])
    ++ (if hasDev then [devScriptPane pm] else [])
    ++ [listingPane]

/-- The pane sequence of the services window: the docker pipeline pane and,
when a db:studio script exists, the database-studio pane. -/
def servicesPanes (withBuild hasDb : Bool) (pm : String) : List Pane :=
  [⟨[dockerCmd withBuild], false⟩]
    ++ (if hasDb then [dbStudioPane pm] else [])

/-- `generateTeamocilYaml` from src/index.ts, rendered to the structured
document instead of the YAML text: same windows, panes, commands, focus
markers and conditionals, in the same order. -/
def generateTeamocilYaml (projectName displayName : String)
    (hasDevScript hasTestsWatchScript hasTypesWatchScript : Bool)
    (hasDockerCompose hasDockerfileFlag hasDbStudioScript : Bool)
    (dir packageManager : String) : LayoutDocument :=
  { comment := "Teamocil configuration for " ++ displayName
    name := projectName
    windows :=
      [⟨"dev", dir, "main-vertical", true,
        devPanes hasDevScript hasTestsWatchScript hasTypesWatchScript packageManager⟩]
      ++ (if hasDockerCompose then
            [⟨"services", dir, "even-horizontal", false,
              servicesPanes hasDockerfileFlag hasDbStudioScript packageManager⟩]
          else []) }

/-- One iteration of the per-target loop in `main`: profile the directory,
probe Docker files, detect the package manager, and render the document.
`dir` is the resolved absolute path and `dirBasename` its base name. -/
def composeForDir (dir dirBasename : String) (customName : Option String)
    (manifest : Option (Option PackageJson)) (files : List String) : LayoutDocument :=
  let info := getProjectInfo dirBasename customName manifest
  generateTeamocilYaml info.name info.displayName
    info.hasDevScript info.hasTestsWatchScript info.hasTypesWatchScript
    (hasDockerComposeFile files) (hasDockerfile files) info.hasDbStudioScript
    dir (detectPackageManager files)

/-- The attach decision of `main` for the iteration processing index `i`:
`!noAttach && targetDir === targetDirs[targetDirs.length - 1]`, where the
comparison is between the directory strings. -/
def shouldAttach (noAttach : Bool) (targetDirs : List String) (i : Nat) : Bool :=
  !noAttach && (targetDirs.getD i "" == targetDirs.getD (targetDirs.length - 1) "")

/-- All panes of a document, across its windows in order. -/
def allPanes (doc : LayoutDocument) : List Pane :=
  (doc.windows.map Window.panes).flatten

/-- Whether `needle` occurs at the start of `hay`. -/
def startsWithList : List Char → List Char → Bool
  | [], _ => true
  | _ :: _, [] => false
  | a :: as, b :: bs => a == b && startsWithList as bs

/-- Whether `needle` occurs contiguously anywhere inside `hay`. -/
def containsSub : List Char → List Char → Bool
  | needle, [] => startsWithList needle []
  | needle, c :: rest => startsWithList needle (c :: rest) || containsSub needle rest

/-- Whether the character list `l` ends with the character list `suffix`. -/
def endsWithList (l suffix : List Char) : Bool :=
  startsWithList suffix.reverse l.reverse

/-- Modelled from the spec: the watch-task extraction of the Project
Profiler (spec section 4.1 step 2, "extract every task whose name ends in a
reserved watch-suffix into watchTasks, preserving manifest declaration
order").  No implementation under src/ extracts such a sequence; this
definition states the spec's notion so the claim about it can be expressed. -/
def watchTasksSpec (scripts : List (String × String)) : List (String × String) :=
  scripts.filter (fun t => endsWithList t.1.data ":watch".data)

/-- Modelled from the spec: the ProjectProfile record of spec section 3,
including the `overrideCommands` and `watchTasks` fields that have no
counterpart in the code under src/. -/
structure ProjectProfile where
  sessionName : String
  displayName : String
  packageManager : String
  devTaskPresent : Bool
  watchTasks : List (String × String)
  dbStudioTaskPresent : Bool
  dockerComposePresent : Bool
  dockerfilePresent : Bool
  overrideCommands : List String
deriving DecidableEq, Repr

/-- Modelled from the spec: the non-override pane sequence of the Layout
Composer (spec section 4.2 step 4): a delayed test-watch pane if a task with
the test-watch name exists, a types-watch pane likewise, one pane per
remaining watch task that is neither of those and not the dev task, and the
dev task's own pane last. -/
def taskPanesSpec (p : ProjectProfile) : List Pane :=
  (if p.watchTasks.any (fun t => t.1 == "test:watch")
    then [⟨["sleep 2", p.packageManager ++ " run test:watch"], false⟩] else [])
  ++ (if p.watchTasks.any (fun t => t.1 == "types:watch")
    then [⟨[p.packageManager ++ " run types:watch"], false⟩] else [])
  ++ ((p.watchTasks.filter
        (fun t => !(t.1 == "test:watch") && !(t.1 == "types:watch") && !(t.1 == "dev"))).map
      (fun t => ⟨[p.packageManager ++ " run " ++ t.1], false⟩))
  ++ (if p.devTaskPresent then [⟨[p.packageManager ++ " run dev"], false⟩] else [])

/-- Modelled from the spec: the Layout Composer `compose` of spec section
4.2, whose override-command pathway (step 3, fed by the override probe of
section 4.1 step 6) has no implementation under src/.  Rendering order
follows the spec's words: a dev window with the editor pane first; if
`overrideCommands` is non-empty one pane per override command in file order
(steps 4-6's task panes skipped), else the task panes; the focused
delay-then-listing pane last; and a services window appended exactly when
`dockerComposePresent`, its up command carrying the build flag exactly when
`dockerfilePresent`, with a database-studio pane when `dbStudioTaskPresent`. -/
def compose (p : ProjectProfile) (rootDir : String) : LayoutDocument :=
  { comment := "Teamocil configuration for " ++ p.displayName
    name := p.sessionName
    windows :=
      [⟨"dev", rootDir, "main-vertical", true,
        ⟨["vim"], false⟩ ::
          ((if p.overrideCommands.isEmpty then taskPanesSpec p
            else p.overrideCommands.map (fun c => ⟨[c], false⟩))
            ++ [⟨["sleep 1", "tree --gitignore"], true⟩])⟩]
      ++ (if p.dockerComposePresent then
            [⟨"services", rootDir, "even-horizontal", false,
              ⟨[dockerCmd p.dockerfilePresent], false⟩ ::
                (if p.dbStudioTaskPresent
                  then [⟨[p.packageManager ++ " db:studio"], false⟩] else [])⟩]
          else []) }

end Autocil

open Autocil

section Helpers

/-- The replacement character map never produces an at sign. -/
lemma sanChar_ne_at (c : Char) : sanChar c ≠ '@' := by
  unfold sanChar
  split
  · decide
  · rename_i h
    intro hc
    exact h (Or.inl hc)

/-- The replacement character map never produces a slash. -/
lemma sanChar_ne_slash (c : Char) : sanChar c ≠ '/' := by
  unfold sanChar
  split
  · decide
  · rename_i h
    intro hc
    exact h (Or.inr hc)

/-- The sanitized character list is contained in the mapped list. -/
lemma sanitizeChars_subset (l : List Char) : sanitizeChars l ⊆ l.map sanChar := by
  unfold sanitizeChars dropOneDash
  split
  · exact List.tail_subset _
  · exact fun _ h => h

/-- Characters free of at signs and slashes are fixed by the replacement map. -/
lemma map_sanChar_id (l : List Char) (h1 : '@' ∉ l) (h2 : '/' ∉ l) :
    l.map sanChar = l := by
  induction l with
  | nil => rfl
  | cons c cs ih =>
    simp only [List.mem_cons, not_or] at h1 h2
    simp only [List.map_cons]
    rw [ih h1.2 h2.2]
    unfold sanChar
    split
    · rename_i h
      rcases h with h | h
      · exact absurd h.symm h1.1
      · exact absurd h.symm h2.1
    · rfl

/-- A leading dash can survive sanitization only when the first two
characters of the input each map to a dash. -/
lemma sanitizeChars_head (l : List Char) (h : (sanitizeChars l).head? = some '-') :
    ∃ c₁ c₂ rest, l = c₁ :: c₂ :: rest ∧ sanChar c₁ = '-' ∧ sanChar c₂ = '-' := by
  unfold sanitizeChars dropOneDash at h
  rcases l with _ | ⟨c₁, l⟩
  · simp at h
  rcases l with _ | ⟨c₂, rest⟩
  · by_cases hc : sanChar c₁ = '-' <;> simp [hc] at h
  · by_cases hc1 : sanChar c₁ = '-'
    · by_cases hc2 : sanChar c₂ = '-'
      · exact ⟨c₁, c₂, rest, rfl, hc1, hc2⟩
      · simp [hc1, hc2] at h
    · simp [hc1] at h

end Helpers

/-- C6: for every directory, package manager detection is total and never
errors: a yarn lockfile selects yarn, else an npm lockfile selects npm, and
absence of both recognized markers selects the default pnpm; the result is
never empty. -/
theorem c6_detect_package_manager (files : List String) :
    detectPackageManager files ≠ "" ∧
    (files.contains "yarn.lock" = true → detectPackageManager files = "yarn") ∧
    (files.contains "yarn.lock" = false → files.contains "package-lock.json" = true →
      detectPackageManager files = "npm") ∧
    (files.contains "yarn.lock" = false → files.contains "package-lock.json" = false →
      detectPackageManager files = "pnpm") := by
  unfold detectPackageManager
  refine ⟨?_, ?_, ?_, ?_⟩
  · split
    · decide
    · split <;> decide
  · intro h
    simp at h
    simp [h]
  · intro h1 h2
    simp at h1 h2
    simp [h1, h2]
  · intro h1 h2
    simp at h1 h2
    simp [h1, h2]

/-- Witness for C6 at concrete directories: a directory with both lockfiles
selects yarn, one with only the npm lockfile selects npm, and an empty
directory selects pnpm with a non-empty result. -/
theorem c6_witness :
    detectPackageManager ["yarn.lock", "package-lock.json"] = "yarn" ∧
    detectPackageManager ["package-lock.json"] = "npm" ∧
    detectPackageManager [] = "pnpm" ∧
    detectPackageManager [] ≠ "" :=
  ⟨(c6_detect_package_manager _).2.1 (by decide),
   (c6_detect_package_manager _).2.2.1 (by decide) (by decide),
   (c6_detect_package_manager _).2.2.2 (by decide) (by decide),
   (c6_detect_package_manager _).1⟩

/-- C9: for every directory whose manifest exists but fails to parse,
profiling still succeeds: the result is the same as with no manifest at
all, the names fall back to the explicit name or the directory base name,
and all four task-presence flags are false. -/
theorem c9_malformed_manifest (b : String) (c : Option String) :
    getProjectInfo b c (some none) = getProjectInfo b c none ∧
    (getProjectInfo b c (some none)).name = defaultProjectName b c ∧
    (getProjectInfo b c (some none)).displayName = defaultProjectName b c ∧
    (getProjectInfo b c (some none)).hasDevScript = false ∧
    (getProjectInfo b c (some none)).hasTestsWatchScript = false ∧
    (getProjectInfo b c (some none)).hasTypesWatchScript = false ∧
    (getProjectInfo b c (some none)).hasDbStudioScript = false :=
  ⟨rfl, rfl, rfl, rfl, rfl, rfl, rfl⟩

/-- C10: for every profile with a non-empty explicit custom name, both the
session name and the display name equal the custom name verbatim (the
manifest name is ignored and no sanitization is applied), while the four
task-presence flags are read from the manifest exactly as they would be
without a custom name. -/
theorem c10_custom_name (b c : String) (m : Option (Option PackageJson))
    (h : ¬(c = "")) :
    (getProjectInfo b (some c) m).name = c ∧
    (getProjectInfo b (some c) m).displayName = c ∧
    (getProjectInfo b (some c) m).hasDevScript = (getProjectInfo b none m).hasDevScript ∧
    (getProjectInfo b (some c) m).hasTestsWatchScript
      = (getProjectInfo b none m).hasTestsWatchScript ∧
    (getProjectInfo b (some c) m).hasTypesWatchScript
      = (getProjectInfo b none m).hasTypesWatchScript ∧
    (getProjectInfo b (some c) m).hasDbStudioScript
      = (getProjectInfo b none m).hasDbStudioScript := by
  rcases m with _ | mm
  · simp [getProjectInfo, defaultProjectName, h]
  · rcases mm with _ | pkg
    · simp [getProjectInfo, defaultProjectName, h]
    · rcases pkg with ⟨pn, scr⟩
      rcases pn with _ | n
      · simp [getProjectInfo, defaultProjectName, h]
      · simp [getProjectInfo, defaultProjectName, optTruthy, h]

/-- Witness for C10: with custom name containing an at sign and a slash and
a manifest declaring its own name and a dev script, the custom name is kept
verbatim while the dev flag still comes from the manifest. -/
theorem c10_witness :
    (getProjectInfo "d" (some "@a/b")
        (some (some ⟨some "pkgname", some [("dev", "x")]⟩))).name = "@a/b" ∧
    (getProjectInfo "d" (some "@a/b")
        (some (some ⟨some "pkgname", some [("dev", "x")]⟩))).displayName = "@a/b" ∧
    (getProjectInfo "d" (some "@a/b")
        (some (some ⟨some "pkgname", some [("dev", "x")]⟩))).hasDevScript
      = (getProjectInfo "d" none
          (some (some ⟨some "pkgname", some [("dev", "x")]⟩))).hasDevScript ∧
    (getProjectInfo "d" (some "@a/b")
        (some (some ⟨some "pkgname", some [("dev", "x")]⟩))).hasTestsWatchScript
      = (getProjectInfo "d" none
          (some (some ⟨some "pkgname", some [("dev", "x")]⟩))).hasTestsWatchScript ∧
    (getProjectInfo "d" (some "@a/b")
        (some (some ⟨some "pkgname", some [("dev", "x")]⟩))).hasTypesWatchScript
      = (getProjectInfo "d" none
          (some (some ⟨some "pkgname", some [("dev", "x")]⟩))).hasTypesWatchScript ∧
    (getProjectInfo "d" (some "@a/b")
        (some (some ⟨some "pkgname", some [("dev", "x")]⟩))).hasDbStudioScript
      = (getProjectInfo "d" none
          (some (some ⟨some "pkgname", some [("dev", "x")]⟩))).hasDbStudioScript :=
  c10_custom_name "d" "@a/b" (some (some ⟨some "pkgname", some [("dev", "x")]⟩)) (by decide)

/-- C3 counterexample: the manifest name consisting of two at signs and a
letter sanitizes to a string that still begins with a dash, because only a
single leading dash is removed; this refutes the universal "no leading dash"
part of the claim. -/
theorem c3_counterexample :
    sanitizePackageName "@@x" = "-x" ∧
    (sanitizePackageName "@@x").data.head? = some '-' := by
  constructor
  · rfl
  · rfl

/-- C3 amended: for every manifest-declared name, the sanitized session name
contains no at sign and no slash, and a leading dash can remain only when the
name's first two characters each map to a dash (each is an at sign, a slash
or a dash); in particular, for every name of the form at-scope-slash-name
with scope and name free of at signs and slashes, the sanitized session name
equals scope-dash-name. -/
theorem c3_sanitize_amended :
    (∀ s : String, '@' ∉ (sanitizePackageName s).data ∧ '/' ∉ (sanitizePackageName s).data) ∧
    (∀ scope nm : List Char, '@' ∉ scope → '/' ∉ scope → '@' ∉ nm → '/' ∉ nm →
      sanitizePackageName (String.mk ('@' :: scope ++ '/' :: nm))
        = String.mk (scope ++ '-' :: nm)) ∧
    (∀ s : String, (sanitizePackageName s).data.head? = some '-' →
      ∃ c₁ c₂ rest, s.data = c₁ :: c₂ :: rest ∧ sanChar c₁ = '-' ∧ sanChar c₂ = '-') := by
  refine ⟨?_, ?_, ?_⟩
  · intro s
    constructor
    · intro hmem
      rcases List.mem_map.mp (sanitizeChars_subset _ hmem) with ⟨c, _, hc⟩
      exact sanChar_ne_at c hc
    · intro hmem
      rcases List.mem_map.mp (sanitizeChars_subset _ hmem) with ⟨c, _, hc⟩
      exact sanChar_ne_slash c hc
  · intro scope nm h1 h2 h3 h4
    have hmap : List.map sanChar ('@' :: scope ++ '/' :: nm) = '-' :: scope ++ '-' :: nm := by
      have hat : sanChar '@' = '-' := by decide
      have hsl : sanChar '/' = '-' := by decide
      simp [map_sanChar_id scope h1 h2, map_sanChar_id nm h3 h4, hat, hsl]
    unfold sanitizePackageName sanitizeChars dropOneDash
    simp only [hmap]
    simp
  · intro s h
    exact sanitizeChars_head s.data h

/-- Witness for C3 amended at a concrete scoped name: sanitizing the name
built from scope and name character lists yields the dashed join. -/
theorem c3_witness :
    sanitizePackageName (String.mk ('@' :: "scope".data ++ '/' :: "name".data))
      = String.mk ("scope".data ++ '-' :: "name".data) :=
  c3_sanitize_amended.2.1 "scope".data "name".data
    (by decide) (by decide) (by decide) (by decide)

/-- C4: for every profile, the composed document contains a second window
named services exactly when the Docker Compose probe succeeded; inside that
window the compose-up command carries the build flag exactly when a
Dockerfile was also found, and a database-studio pane is appended exactly
when a db:studio script was detected. -/
theorem c4_docker_services (pn dn : String) (hDev hTests hTypes hCompose hDockerF hDb : Bool)
    (dir pm : String) :
    ((generateTeamocilYaml pn dn hDev hTests hTypes hCompose hDockerF hDb dir pm).windows.map
        Window.name = if hCompose then ["dev", "services"] else ["dev"]) ∧
    (hCompose = true →
      ∃ w ∈ (generateTeamocilYaml pn dn hDev hTests hTypes hCompose hDockerF hDb dir pm).windows,
        w.name = "services" ∧
        containsSub "--build".data ((w.panes.headD default).commands.headD "").data = hDockerF ∧
        w.panes.map Pane.commands
          = [[dockerCmd hDockerF]] ++ (if hDb then [[pm ++ " db:studio"]] else [])) := by
  constructor
  · cases hCompose <;> simp [generateTeamocilYaml]
  · intro hc
    subst hc
    refine ⟨⟨"services", dir, "even-horizontal", false, servicesPanes hDockerF hDb pm⟩,
      ?_, rfl, ?_, ?_⟩
    · simp [generateTeamocilYaml]
    · cases hDockerF <;> simp [servicesPanes] <;> decide
    · cases hDb <;> simp [servicesPanes, dbStudioPane]

/-- Witness for C4 at a concrete profile with Docker Compose, a Dockerfile
and a db:studio script: the services window exists, its up command contains
the build flag, and the database-studio pane follows. -/
theorem c4_witness :
    ∃ w ∈ (generateTeamocilYaml "p" "p" false false false true true true "/r" "pnpm").windows,
      w.name = "services" ∧
      containsSub "--build".data ((w.panes.headD default).commands.headD "").data = true ∧
      w.panes.map Pane.commands
        = [[dockerCmd true]] ++ (if true then [["pnpm" ++ " db:studio"]] else []) :=
  (c4_docker_services "p" "p" false false false true true true "/r" "pnpm").2 rfl

/-- C5: for every profile in which a dev task exists, the dev pane is
strictly the last generated pane of the dev window before the final listing
pane, after the delayed test-watch pane and the types-watch pane. -/
theorem c5_dev_pane_last (pn dn : String) (hDev hTests hTypes hCompose hDockerF hDb : Bool)
    (dir pm : String) (h : hDev = true) :
    (((generateTeamocilYaml pn dn hDev hTests hTypes hCompose hDockerF hDb dir pm).windows.headD
        default).panes
      = [vimPane] ++ (if hTests then [testWatchPane pm] else [])
        ++ (if hTypes then [typesWatchPane pm] else []) ++ [devScriptPane pm, listingPane]) ∧
    (((generateTeamocilYaml pn dn hDev hTests hTypes hCompose hDockerF hDb dir
        pm).windows.headD default).panes.dropLast.getLast? = some (devScriptPane pm)) ∧
    (((generateTeamocilYaml pn dn hDev hTests hTypes hCompose hDockerF hDb dir
        pm).windows.headD default).panes.getLast? = some listingPane) ∧
    (testWatchPane pm).commands.head? = some "sleep 2" := by
  subst h
  refine ⟨?_, ?_, ?_, rfl⟩ <;>
    cases hTests <;> cases hTypes <;>
      simp [generateTeamocilYaml, devPanes, List.dropLast, List.getLast?]

/-- Witness for C5 at a concrete profile with dev, test-watch and
types-watch tasks all present. -/
theorem c5_witness :
    (((generateTeamocilYaml "p" "p" true true true false false false "/r" "pnpm").windows.headD
        default).panes
      = [vimPane] ++ (if true then [testWatchPane "pnpm"] else [])
        ++ (if true then [typesWatchPane "pnpm"] else [])
        ++ [devScriptPane "pnpm", listingPane]) ∧
    (((generateTeamocilYaml "p" "p" true true true false false false "/r"
        "pnpm").windows.headD default).panes.dropLast.getLast?
      = some (devScriptPane "pnpm")) ∧
    (((generateTeamocilYaml "p" "p" true true true false false false "/r"
        "pnpm").windows.headD default).panes.getLast? = some listingPane) ∧
    (testWatchPane "pnpm").commands.head? = some "sleep 2" :=
  c5_dev_pane_last "p" "p" true true true false false false "/r" "pnpm" rfl

/-- C7: in every composed layout document, exactly one pane carries the
focus marker: the final delay-then-listing pane of the dev window, never the
editor pane, for every combination of detected tasks. -/
theorem c7_unique_focus (pn dn : String) (hDev hTests hTypes hCompose hDockerF hDb : Bool)
    (dir pm : String) :
    ((allPanes (generateTeamocilYaml pn dn hDev hTests hTypes hCompose hDockerF hDb dir
        pm)).filter Pane.focus = [listingPane]) ∧
    (((generateTeamocilYaml pn dn hDev hTests hTypes hCompose hDockerF hDb dir
        pm).windows.headD default).panes.getLast? = some listingPane) ∧
    (((generateTeamocilYaml pn dn hDev hTests hTypes hCompose hDockerF hDb dir
        pm).windows.headD default).panes.head? = some vimPane) ∧
    listingPane.focus = true ∧
    vimPane.focus = false := by
  refine ⟨?_, ?_, ?_, rfl, rfl⟩ <;>
    cases hDev <;> cases hTests <;> cases hTypes <;> cases hCompose <;> cases hDockerF <;>
      cases hDb <;>
        simp [allPanes, generateTeamocilYaml, devPanes, servicesPanes, vimPane, testWatchPane,
          typesWatchPane, devScriptPane, listingPane, dbStudioPane, List.filter,
          List.getLast?]

/-- C1: for every profile with a non-empty override-command sequence, the
composed document's dev window is exactly the editor pane, one pane per
override command in file order, and the focused listing pane — a pane count
of one plus the override count plus one, with no watch-task or dev-task
panes — while the services window is still appended exactly when Docker
Compose is present. -/
theorem c1_override_composition (p : ProjectProfile) (root : String)
    (h : p.overrideCommands ≠ []) :
    (((compose p root).windows.headD default).panes.length
      = 1 + p.overrideCommands.length + 1) ∧
    (((compose p root).windows.headD default).panes
      = vimPane :: (p.overrideCommands.map (fun c => Pane.mk [c] false) ++ [listingPane])) ∧
    ((compose p root).windows.map Window.name
      = if p.dockerComposePresent then ["dev", "services"] else ["dev"]) := by
  have hni : p.overrideCommands.isEmpty = false := by
    simpa [List.isEmpty_iff] using h
  refine ⟨?_, ?_, ?_⟩
  · simp [compose, hni, vimPane, listingPane]
    omega
  · simp [compose, hni, vimPane, listingPane]
  · cases hp : p.dockerComposePresent <;> simp [compose, hp]

/-- Witness for C1 at a concrete profile carrying two override commands, a
dev task, a watch task, a db:studio task and Docker Compose: the dev window
is editor, the two override panes in order, and the listing pane, and the
services window is still appended. -/
theorem c1_witness :
    (((compose ⟨"s", "d", "pnpm", true, [("test:watch", "t")], true, true, false,
          ["cmd1", "cmd2"]⟩ "/r").windows.headD default).panes.length
      = 1 + (["cmd1", "cmd2"] : List String).length + 1) ∧
    (((compose ⟨"s", "d", "pnpm", true, [("test:watch", "t")], true, true, false,
          ["cmd1", "cmd2"]⟩ "/r").windows.headD default).panes
      = vimPane :: ((["cmd1", "cmd2"] : List String).map (fun c => Pane.mk [c] false)
          ++ [listingPane])) ∧
    ((compose ⟨"s", "d", "pnpm", true, [("test:watch", "t")], true, true, false,
          ["cmd1", "cmd2"]⟩ "/r").windows.map Window.name
      = if true then ["dev", "services"] else ["dev"]) :=
  c1_override_composition
    ⟨"s", "d", "pnpm", true, [("test:watch", "t")], true, true, false, ["cmd1", "cmd2"]⟩
    "/r" (by decide)

/-- C2 counterexample: a manifest declaring only a task named lint:watch,
which ends with the reserved watch suffix; the spec-level extraction lists
it, yet the composed dev window consists solely of the editor pane and the
listing pane — the task receives no pane, refuting the claim. -/
theorem c2_counterexample :
    ("lint:watch", "x") ∈ watchTasksSpec [("lint:watch", "x")] ∧
    (composeForDir "/r/p" "p" none (some (some ⟨none, some [("lint:watch", "x")]⟩))
        []).windows.map (fun w => w.panes.map Pane.commands)
      = [[["vim"], ["sleep 1", "tree --gitignore"]]] := by
  constructor
  · decide
  · rfl

/-- A script entry for a key other than the looked-up one does not change
the lookup result, wherever it sits in the list. -/
lemma getScript_middle (nm val k : String) (scr₁ scr₂ : List (String × String))
    (h : nm ≠ k) :
    getScript (scr₁ ++ (nm, val) :: scr₂) k = getScript (scr₁ ++ scr₂) k := by
  unfold getScript
  have hk : ((nm, val).1 == k) = false := by
    simp [h]
  simp [List.filter_append, List.filter_cons, hk]

/-- C2 amended: the code detects only the two literal task names test:watch
and types:watch (as presence flags, not an ordered sequence); any script
entry whose name is none of the four reserved names — in particular any
other task ending in the watch suffix, at any declaration position — has no
effect on the composed document. -/
theorem c2_watch_tasks_amended (dir b : String) (c : Option String) (pn : Option String)
    (scr₁ scr₂ : List (String × String)) (nm val : String) (files : List String)
    (h1 : nm ≠ "dev") (h2 : nm ≠ "test:watch") (h3 : nm ≠ "types:watch")
    (h4 : nm ≠ "db:studio") :
    composeForDir dir b c (some (some ⟨pn, some (scr₁ ++ (nm, val) :: scr₂)⟩)) files
      = composeForDir dir b c (some (some ⟨pn, some (scr₁ ++ scr₂)⟩)) files := by
  have hs : getProjectInfo b c (some (some ⟨pn, some (scr₁ ++ (nm, val) :: scr₂)⟩))
      = getProjectInfo b c (some (some ⟨pn, some (scr₁ ++ scr₂)⟩)) := by
    cases pn <;>
      simp [getProjectInfo, hasScript,
        getScript_middle nm val "dev" scr₁ scr₂ h1,
        getScript_middle nm val "test:watch" scr₁ scr₂ h2,
        getScript_middle nm val "types:watch" scr₁ scr₂ h3,
        getScript_middle nm val "db:studio" scr₁ scr₂ h4]
  simp [composeForDir, hs]

/-- Witness for C2 amended: inserting a lint:watch entry between a dev entry
and a db:studio entry leaves the composed document unchanged. -/
theorem c2_witness :
    composeForDir "/r/p" "p" none
        (some (some ⟨none, some ([("dev", "1")] ++ ("lint:watch", "x") :: [("db:studio", "2")])⟩))
        []
      = composeForDir "/r/p" "p" none
          (some (some ⟨none, some ([("dev", "1")] ++ [("db:studio", "2")])⟩)) [] :=
  c2_watch_tasks_amended "/r/p" "p" none none [("dev", "1")] [("db:studio", "2")]
    "lint:watch" "x" [] (by decide) (by decide) (by decide) (by decide)

/-- C8 counterexample: with the same directory string listed twice, the
attach decision of the first (earlier) iteration is already true, because
the code compares directory strings with the final list entry; this refutes
the claim that no earlier target is auto-attached. -/
theorem c8_counterexample :
    shouldAttach false ["a", "a"] 0 = true ∧ 0 < (["a", "a"] : List String).length - 1 := by
  constructor
  · rfl
  · decide

/-- C8 amended: auto-attach is requested exactly for the iterations whose
directory string equals the final target's; hence for pairwise-distinct
target directories it is requested for the final target and for no earlier
one, and never when the no-attach option is set. -/
theorem c8_attach_amended (dirs : List String) (i : Nat) (hnd : dirs.Nodup)
    (hi : i < dirs.length) :
    (shouldAttach false dirs i = true ↔ i = dirs.length - 1) ∧
    shouldAttach true dirs i = false := by
  constructor
  · have hlen : 0 < dirs.length := Nat.lt_of_le_of_lt (Nat.zero_le i) hi
    have hlast : dirs.length - 1 < dirs.length := Nat.sub_lt hlen Nat.one_pos
    unfold shouldAttach
    rw [List.getD_eq_getElem dirs "" hi, List.getD_eq_getElem dirs "" hlast]
    simp only [Bool.not_false, Bool.true_and, beq_iff_eq]
    constructor
    · intro hEq
      have := List.Nodup.getElem_inj_iff hnd |>.mp hEq
      exact this
    · intro hEq
      subst hEq
      rfl
  · simp [shouldAttach]

/-- Witness for C8 amended: with two distinct directories, the second and
final iteration requests auto-attach. -/
theorem c8_witness : shouldAttach false ["a", "b"] 1 = true := by
  have h := c8_attach_amended ["a", "b"] 1 (by decide) (by decide)
  exact h.1.mpr (by decide)
